import Mathlib

/-!
# Verification of the password-strength scorer in `ResturantMenuProject/menu.js`

Shallow embedding of the two scoring functions of the repository
(`validatePasswordStrength`, lines 273–306, and `calculatePasswordStrength`,
lines 639–654) together with the shared complexity heuristic
(`calculateComplexity`, lines 308–346) and the weight configuration
(`passwordStrengthConfig`, lines 7–18).

Passwords are modelled as `List Char` (a JS string literal `"x"` appears as
`"x".data`); JS number arithmetic on the decimal constants of the scorer is
modelled exactly over `ℚ`.
-/

namespace Menu

/-! ## Weight configuration (`passwordStrengthConfig.requirements`) -/

def lengthWeight : ℚ := 20
def lowercaseWeight : ℚ := 15
def uppercaseWeight : ℚ := 15
def numberWeight : ℚ := 15
def specialWeight : ℚ := 15
def complexityWeight : ℚ := 20

/-! ## Character classes (the regex character sets of the source) -/

/-- `/[a-z]/` applied to a single character. -/
def isLowerCh (c : Char) : Bool := 'a' ≤ c && c ≤ 'z'

/-- `/[A-Z]/` applied to a single character. -/
def isUpperCh (c : Char) : Bool := 'A' ≤ c && c ≤ 'Z'

/-- `/[0-9]/` applied to a single character. -/
def isDigitCh (c : Char) : Bool := '0' ≤ c && c ≤ '9'

/-- `/[a-zA-Z]/` applied to a single character. -/
def isLetterCh (c : Char) : Bool := isLowerCh c || isUpperCh c

/-- The character set of the special-character regex
`/[!@#$%^&*()_+\-=\[\]{};':"\\|,.<>\/?]/` (line 297 and line 647). -/
def specialChars : List Char :=
  ['!', '@', '#', '$', '%', '^', '&', '*', '(', ')', '_', '+', '-', '=',
   '[', ']', Char.ofNat 0x7b, Char.ofNat 0x7d, ';', '\'', ':', '"', '\\',
   '|', ',', '.', '<', '>', '/', '?']

def isSpecialCh (c : Char) : Bool := specialChars.contains c

/-- `/[a-z]/.test(password)` -/
def hasLower (p : List Char) : Bool := p.any isLowerCh

/-- `/[A-Z]/.test(password)` -/
def hasUpper (p : List Char) : Bool := p.any isUpperCh

/-- `/[0-9]/.test(password)` -/
def hasDigit (p : List Char) : Bool := p.any isDigitCh

/-- `/[a-zA-Z]/.test(password)` -/
def hasLetter (p : List Char) : Bool := p.any isLetterCh

/-- `/[!@#$%^&*()_+\-=\[\]{};':"\\|,.<>\/?]/.test(password)` -/
def hasSpecial (p : List Char) : Bool := p.any isSpecialCh

/-! ## `calculateComplexity` (lines 308–346) -/

/-- ASCII lowercasing, the fragment of JS `String.prototype.toLowerCase`
relevant to the ASCII denylist patterns. -/
def toLowerJs (c : Char) : Char :=
  if isUpperCh c then Char.ofNat (c.toNat + 32) else c

/-- The `commonPatterns` table (lines 310–317): each regex is a literal
lowercase substring. -/
def commonPatterns : List (List Char) :=
  ["123".data, "abc".data, "qwerty".data, "password".data,
   "admin".data, "user".data]

/-- `commonPatterns.some((pattern) => pattern.test(password.toLowerCase()))`
(lines 325–327): a literal substring search over the lowercased password. -/
def hasCommonPattern (p : List Char) : Bool :=
  commonPatterns.any (fun pat => decide (pat <:+: p.map toLowerJs))

/-- JS line terminators, which the regex metacharacter `.` does not match
(the regexes of the source carry no `s` flag). -/
def isLineTerminator (c : Char) : Bool :=
  c == '\n' || c == '\r' || c == Char.ofNat 0x2028 || c == Char.ofNat 0x2029

/-- `/(.)\1{2,}/.test(password)` (line 318): some character other than a line
terminator occurs at least three times consecutively. -/
def hasRepeats (p : List Char) : Bool :=
  p.any (fun c => !isLineTerminator c && decide ([c, c, c] <:+: p))

/-- The alternation table of the sequential-run regex (lines 319–322). -/
def sequentialRuns : List (List Char) :=
  ["abc".data, "bcd".data, "cde".data, "def".data, "efg".data, "fgh".data,
   "ghi".data, "hij".data, "ijk".data, "jkl".data, "klm".data, "lmn".data,
   "mno".data, "nop".data, "opq".data, "pqr".data, "qrs".data, "rst".data,
   "stu".data, "tuv".data, "uvw".data, "vwx".data, "wxy".data, "xyz".data,
   "012".data, "123".data, "234".data, "345".data, "456".data, "567".data,
   "678".data, "789".data]

/-- `/(?:abc|bcd|...|789)/i.test(password)` (lines 319–322): the `i` flag makes
the search case-insensitive, which for these ASCII patterns is a substring
search over the ASCII-lowercased password. -/
def hasSequential (p : List Char) : Bool :=
  sequentialRuns.any (fun run => decide (run <:+: p.map toLowerJs))

/-- `calculateComplexity` (lines 308–346): the running accumulator starts at 0,
receives each signed adjustment, then `0.7` is added and the result is clamped
by `Math.max(0, Math.min(1, ·))`. -/
def calculateComplexity (p : List Char) : ℚ :=
  let complexity : ℚ :=
    (if hasCommonPattern p then -(0.3 : ℚ) else 0)
    + (if hasRepeats p then -(0.2 : ℚ) else 0)
    + (if hasSequential p then -(0.2 : ℚ) else 0)
    + (if hasLower p && hasUpper p then (0.2 : ℚ) else 0)
    + (if hasDigit p && hasLetter p then (0.2 : ℚ) else 0)
    + (if 12 ≤ p.length then (0.3 : ℚ) else 0)
    + (if 16 ≤ p.length then (0.2 : ℚ) else 0)
  max 0 (min 1 (complexity + 0.7))

/-! ## `validatePasswordStrength` (lines 273–306) -/

/-- The `results` record and the accumulated `totalScore` of
`validatePasswordStrength`.  The source hands both to
`updatePasswordDisplay`; the record collects exactly what the scoring part
computes. -/
structure ScoreResult where
  total : ℚ
  length : Bool
  lowercase : Bool
  uppercase : Bool
  number : Bool
  special : Bool
  complexity : Bool
  deriving Repr, DecidableEq

/-- `Math.min((password.length / 12) * requirements.length.weight,
requirements.length.weight)` (lines 280–283). -/
def lengthScore (p : List Char) : ℚ :=
  min ((p.length : ℚ) / 12 * lengthWeight) lengthWeight

/-- `validatePasswordStrength` (lines 273–306): the length ramp, the four
binary character-class weights, and the continuous complexity contribution;
`results.length` is the step `password.length >= 8`, `results.complexity` the
flag `complexityScore > 0.7`. -/
def validatePasswordStrength (p : List Char) : ScoreResult :=
  let complexityScore := calculateComplexity p
  { total := lengthScore p
      + (if hasLower p then lowercaseWeight else 0)
      + (if hasUpper p then uppercaseWeight else 0)
      + (if hasDigit p then numberWeight else 0)
      + (if hasSpecial p then specialWeight else 0)
      + complexityScore * complexityWeight
    length := decide (8 ≤ p.length)
    lowercase := hasLower p
    uppercase := hasUpper p
    number := hasDigit p
    special := hasSpecial p
    complexity := decide ((0.7 : ℚ) < complexityScore) }

/-! ## `calculatePasswordStrength` (lines 639–654) -/

/-- `calculatePasswordStrength` (lines 639–654), the scorer used by
`validateLoginForm` against the threshold 60: the length term is the full
weight awarded as a step at `password.length >= 8`. -/
def calculatePasswordStrength (p : List Char) : ℚ :=
  (if 8 ≤ p.length then lengthWeight else 0)
  + (if hasLower p then lowercaseWeight else 0)
  + (if hasUpper p then uppercaseWeight else 0)
  + (if hasDigit p then numberWeight else 0)
  + (if hasSpecial p then specialWeight else 0)
  + calculateComplexity p * complexityWeight


/-! ## Projection lemmas for `validatePasswordStrength` -/

theorem validate_total_eq (p : List Char) :
    (validatePasswordStrength p).total =
      lengthScore p
      + (if hasLower p then lowercaseWeight else 0)
      + (if hasUpper p then uppercaseWeight else 0)
      + (if hasDigit p then numberWeight else 0)
      + (if hasSpecial p then specialWeight else 0)
      + calculateComplexity p * complexityWeight := rfl

theorem validate_length_eq (p : List Char) :
    (validatePasswordStrength p).length = decide (8 ≤ p.length) := rfl

theorem validate_lowercase_eq (p : List Char) :
    (validatePasswordStrength p).lowercase = hasLower p := rfl

theorem validate_uppercase_eq (p : List Char) :
    (validatePasswordStrength p).uppercase = hasUpper p := rfl

theorem validate_number_eq (p : List Char) :
    (validatePasswordStrength p).number = hasDigit p := rfl

theorem validate_special_eq (p : List Char) :
    (validatePasswordStrength p).special = hasSpecial p := rfl

theorem validate_complexity_eq (p : List Char) :
    (validatePasswordStrength p).complexity =
      decide ((0.7 : ℚ) < calculateComplexity p) := rfl

theorem calculateComplexity_eq (p : List Char) :
    calculateComplexity p =
      max 0 (min 1 ((if hasCommonPattern p then -(0.3 : ℚ) else 0)
        + (if hasRepeats p then -(0.2 : ℚ) else 0)
        + (if hasSequential p then -(0.2 : ℚ) else 0)
        + (if hasLower p && hasUpper p then (0.2 : ℚ) else 0)
        + (if hasDigit p && hasLetter p then (0.2 : ℚ) else 0)
        + (if 12 ≤ p.length then (0.3 : ℚ) else 0)
        + (if 16 ≤ p.length then (0.2 : ℚ) else 0) + 0.7)) := rfl

/-! ## Bounds -/

theorem calculateComplexity_nonneg (p : List Char) : 0 ≤ calculateComplexity p := by
  rw [calculateComplexity_eq]; exact le_max_left _ _

theorem calculateComplexity_le_one (p : List Char) : calculateComplexity p ≤ 1 := by
  rw [calculateComplexity_eq]; exact max_le (by norm_num) (min_le_left _ _)

theorem lengthScore_nonneg (p : List Char) : 0 ≤ lengthScore p := by
  unfold lengthScore lengthWeight
  exact le_min (by positivity) (by norm_num)

theorem lengthScore_le (p : List Char) : lengthScore p ≤ lengthWeight :=
  min_le_right _ _

/-! ## C1: the total is always in [0, 100] -/

/-- **C1**: for every input string, the total strength score computed by
`validatePasswordStrength` (length ramp term, plus the four binary
character-class weights, plus complexity times its weight) is at least 0 and
at most 100. -/
theorem c1_total_bounds (p : List Char) :
    0 ≤ (validatePasswordStrength p).total ∧
      (validatePasswordStrength p).total ≤ 100 := by
  rw [validate_total_eq]
  have hc0 := calculateComplexity_nonneg p
  have hc1 := calculateComplexity_le_one p
  have hl0 := lengthScore_nonneg p
  have hl1 := lengthScore_le p
  have h1 : 0 ≤ (if hasLower p then lowercaseWeight else 0) ∧
      (if hasLower p then lowercaseWeight else 0) ≤ lowercaseWeight := by
    unfold lowercaseWeight; split <;> norm_num
  have h2 : 0 ≤ (if hasUpper p then uppercaseWeight else 0) ∧
      (if hasUpper p then uppercaseWeight else 0) ≤ uppercaseWeight := by
    unfold uppercaseWeight; split <;> norm_num
  have h3 : 0 ≤ (if hasDigit p then numberWeight else 0) ∧
      (if hasDigit p then numberWeight else 0) ≤ numberWeight := by
    unfold numberWeight; split <;> norm_num
  have h4 : 0 ≤ (if hasSpecial p then specialWeight else 0) ∧
      (if hasSpecial p then specialWeight else 0) ≤ specialWeight := by
    unfold specialWeight; split <;> norm_num
  obtain ⟨h1a, h1b⟩ := h1
  obtain ⟨h2a, h2b⟩ := h2
  obtain ⟨h3a, h3b⟩ := h3
  obtain ⟨h4a, h4b⟩ := h4
  unfold lengthWeight lowercaseWeight uppercaseWeight numberWeight
    specialWeight complexityWeight at *
  constructor <;> nlinarith [hc0, hc1]

/-! ## C5: scoring the empty string -/

/-- **C5**: scoring the empty string yields all six `perRule` entries false,
a complexity sub-score equal to the 0.7 baseline (no bonus or penalty
triggers), and a total consisting of the (zero) length term plus the baseline
complexity contribution alone, no class weight being added. -/
theorem c5_empty_string :
    (validatePasswordStrength "".data).length = false ∧
    (validatePasswordStrength "".data).lowercase = false ∧
    (validatePasswordStrength "".data).uppercase = false ∧
    (validatePasswordStrength "".data).number = false ∧
    (validatePasswordStrength "".data).special = false ∧
    (validatePasswordStrength "".data).complexity = false ∧
    calculateComplexity "".data = 0.7 ∧
    lengthScore "".data = 0 ∧
    (validatePasswordStrength "".data).total =
      lengthScore "".data + calculateComplexity "".data * complexityWeight := by
  have hc : calculateComplexity "".data = 0.7 := by
    simp +decide [calculateComplexity, min_def, max_def]
    norm_num
  have hls : lengthScore "".data = 0 := by
    simp [lengthScore, lengthWeight]
  refine ⟨by decide, by decide, by decide, by decide, by decide, ?_, hc, hls, ?_⟩
  · rw [validate_complexity_eq, hc]
    simp only [decide_eq_false_iff_not]
    norm_num
  · rw [validate_total_eq, hls, hc]
    simp +decide

/-! ## C2: the two scorers and their length terms -/

/-- The step length term of `calculatePasswordStrength` agrees with the ramp
`lengthScore` of `validatePasswordStrength` exactly for the empty password and
for passwords of length at least 12. -/
theorem stepLen_eq_ramp_iff (p : List Char) :
    ((if 8 ≤ p.length then lengthWeight else 0) = lengthScore p) ↔
      (p.length = 0 ∨ 12 ≤ p.length) := by
  unfold lengthScore lengthWeight
  rcases Nat.lt_or_ge p.length 8 with h8 | h8
  · rw [if_neg (by omega)]
    rcases Nat.eq_zero_or_pos p.length with h0 | h0
    · apply iff_of_true
      · rw [h0]; norm_num
      · exact Or.inl h0
    · apply iff_of_false
      · have h1 : (1 : ℚ) ≤ (p.length : ℚ) := by exact_mod_cast h0
        have h2 : (p.length : ℚ) < 8 := by exact_mod_cast h8
        rw [min_eq_left (by linarith)]
        intro hcontra
        have : (0 : ℚ) < (p.length : ℚ) / 12 * 20 := by linarith
        linarith
      · omega
  · rcases Nat.lt_or_ge p.length 12 with h12 | h12
    · rw [if_pos h8]
      have h2 : (p.length : ℚ) < 12 := by exact_mod_cast h12
      rw [min_eq_left (by linarith)]
      apply iff_of_false
      · intro hcontra
        linarith
      · omega
    · rw [if_pos (by omega)]
      have h2 : (12 : ℚ) ≤ (p.length : ℚ) := by exact_mod_cast h12
      rw [min_eq_right (by linarith)]
      exact iff_of_true rfl (Or.inr h12)

/-- **C2** (amended): the login scorer `calculatePasswordStrength` and the
display scorer `validatePasswordStrength` share the four character-class terms
and the complexity term but differ in the length term — the login scorer
awards the full length weight as a step at length ≥ 8, the display scorer uses
the continuous ramp `min(length/12, 1) · 20` — so their totals coincide
exactly for passwords of length 0 or of length at least 12. -/
theorem c2_scorers_agree_iff (p : List Char) :
    calculatePasswordStrength p = (validatePasswordStrength p).total ↔
      (p.length = 0 ∨ 12 ≤ p.length) := by
  rw [← stepLen_eq_ramp_iff p, validate_total_eq]
  unfold calculatePasswordStrength
  constructor <;> intro h <;> linarith

/-- **C2** (counterexample): for the one-character password "a" the login
scorer yields 29 while the display scorer's total is 92/3, so the two scorers
are not the same function. -/
theorem c2_counterexample :
    calculatePasswordStrength "a".data ≠
      (validatePasswordStrength "a".data).total := by
  have hc : calculateComplexity "a".data = 0.7 := by
    simp +decide [calculateComplexity, min_def, max_def]
    norm_num
  rw [validate_total_eq]
  simp +decide [calculatePasswordStrength, lengthScore, hc, lengthWeight,
    lowercaseWeight, uppercaseWeight, numberWeight, specialWeight,
    complexityWeight, min_def, max_def]
  norm_num

/-! ## C3: the complexity formula -/

/-- Modelled from the spec: claim C3's repeat clause — "minus 0.2 if some
character repeats 3+ times consecutively" — which excludes no character,
unlike the source regex `/(.)\1{2,}/` whose `.` does not match line
terminators. -/
def hasRepeatsClaim (p : List Char) : Bool :=
  p.any (fun c => decide ([c, c, c] <:+: p))

/-- Modelled from the spec: the complexity sub-score exactly as claim C3 words
it — a 0.7 baseline, minus 0.3 on a denylist hit, minus 0.2 if some character
(any character) repeats 3+ times consecutively, minus 0.2 on an ascending
3-run, plus 0.2 for mixed case, plus 0.2 for digit-and-letter, plus 0.3 at
length ≥ 12 and a further 0.2 at length ≥ 16, all applied independently with
a single final clamp to [0, 1]. -/
def complexityClaimC3 (p : List Char) : ℚ :=
  max 0 (min 1 ((0.7 : ℚ)
    - (if hasCommonPattern p then (0.3 : ℚ) else 0)
    - (if hasRepeatsClaim p then (0.2 : ℚ) else 0)
    - (if hasSequential p then (0.2 : ℚ) else 0)
    + (if hasLower p && hasUpper p then (0.2 : ℚ) else 0)
    + (if hasDigit p && hasLetter p then (0.2 : ℚ) else 0)
    + (if 12 ≤ p.length then (0.3 : ℚ) else 0)
    + (if 16 ≤ p.length then (0.2 : ℚ) else 0)))

/-- Claim C3's formula with its repeat clause narrowed to what the source
regex tests: a repeated character that is not a line terminator. -/
def complexityClaimC3Amended (p : List Char) : ℚ :=
  max 0 (min 1 ((0.7 : ℚ)
    - (if hasCommonPattern p then (0.3 : ℚ) else 0)
    - (if hasRepeats p then (0.2 : ℚ) else 0)
    - (if hasSequential p then (0.2 : ℚ) else 0)
    + (if hasLower p && hasUpper p then (0.2 : ℚ) else 0)
    + (if hasDigit p && hasLetter p then (0.2 : ℚ) else 0)
    + (if 12 ≤ p.length then (0.3 : ℚ) else 0)
    + (if 16 ≤ p.length then (0.2 : ℚ) else 0)))

theorem ite_neg_weight (b : Bool) (w : ℚ) :
    (if b = true then -w else 0) = -(if b = true then w else 0) := by
  cases b <;> simp

/-- **C3** (counterexample): on the password consisting of three newline
characters the source's complexity is the bare baseline 0.7 — the regex
`/(.)\1{2,}/` cannot match a line terminator — while the claim's formula
subtracts the repeat penalty and yields 0.5. -/
theorem c3_counterexample :
    calculateComplexity "\n\n\n".data ≠ complexityClaimC3 "\n\n\n".data := by
  have h1 : calculateComplexity "\n\n\n".data = 0.7 := by
    simp +decide [calculateComplexity, min_def, max_def]
    norm_num
  have h2 : complexityClaimC3 "\n\n\n".data = 0.5 := by
    simp +decide [complexityClaimC3, min_def, max_def]
    norm_num
  rw [h1, h2]
  norm_num

/-- **C3** (amended): for every input string the source's complexity sub-score
equals the claimed formula — 0.7 baseline, denylist penalty 0.3, repeat
penalty 0.2, sequential penalty 0.2, the two 0.2 diversity bonuses, the 0.3
and 0.2 length bonuses, all independent, one final clamp to [0, 1] — once the
repeat clause is restricted to repeated characters that are not line
terminators. -/
theorem c3_amended_formula (p : List Char) :
    calculateComplexity p = complexityClaimC3Amended p := by
  rw [calculateComplexity_eq]
  unfold complexityClaimC3Amended
  rw [ite_neg_weight, ite_neg_weight, ite_neg_weight]
  congr 1
  congr 1
  ring

/-! ## C4: appending characters of a missing class never decreases the total -/

theorem infixExtend {t p s : List Char} (h : t <:+: p) : t <:+: p ++ s := by
  rcases h with ⟨u, v, rfl⟩
  exact ⟨u, v ++ s, by simp⟩

theorem any_append_left {f : Char → Bool} (p s : List Char)
    (h : p.any f = true) : (p ++ s).any f = true := by
  rw [List.any_append, h, Bool.true_or]

theorem hasLower_append (p s : List Char) (h : hasLower p = true) :
    hasLower (p ++ s) = true := any_append_left p s h

theorem hasUpper_append (p s : List Char) (h : hasUpper p = true) :
    hasUpper (p ++ s) = true := any_append_left p s h

theorem hasDigit_append (p s : List Char) (h : hasDigit p = true) :
    hasDigit (p ++ s) = true := any_append_left p s h

theorem hasLetter_append (p s : List Char) (h : hasLetter p = true) :
    hasLetter (p ++ s) = true := any_append_left p s h

theorem hasSpecial_append (p s : List Char) (h : hasSpecial p = true) :
    hasSpecial (p ++ s) = true := any_append_left p s h

theorem hasCommonPattern_append (p s : List Char)
    (h : hasCommonPattern p = true) : hasCommonPattern (p ++ s) = true := by
  simp only [hasCommonPattern, List.any_eq_true, decide_eq_true_eq] at h ⊢
  rcases h with ⟨pat, hmem, hinf⟩
  refine ⟨pat, hmem, ?_⟩
  rw [List.map_append]
  exact infixExtend hinf

theorem hasSequential_append (p s : List Char)
    (h : hasSequential p = true) : hasSequential (p ++ s) = true := by
  simp only [hasSequential, List.any_eq_true, decide_eq_true_eq] at h ⊢
  rcases h with ⟨run, hmem, hinf⟩
  refine ⟨run, hmem, ?_⟩
  rw [List.map_append]
  exact infixExtend hinf

theorem hasRepeats_append (p s : List Char)
    (h : hasRepeats p = true) : hasRepeats (p ++ s) = true := by
  simp only [hasRepeats, List.any_eq_true, Bool.and_eq_true,
    decide_eq_true_eq] at h ⊢
  rcases h with ⟨c, hc, hterm, hinf⟩
  exact ⟨c, by simp [hc], hterm, infixExtend hinf⟩

theorem ite_weight_mono (b1 b2 : Bool) (w : ℚ) (hw : 0 ≤ w)
    (h : b1 = true → b2 = true) :
    (if b1 = true then w else 0) ≤ (if b2 = true then w else 0) := by
  cases b1 <;> cases b2 <;> simp_all

theorem lengthScore_mono (p s : List Char) :
    lengthScore p ≤ lengthScore (p ++ s) := by
  unfold lengthScore lengthWeight
  have h : (p.length : ℚ) ≤ ((p ++ s).length : ℚ) := by
    have := List.length_append p s
    exact_mod_cast by omega
  exact min_le_min (by linarith) (le_refl _)

theorem clamp_drop {x y d : ℚ} (hd : 0 ≤ d) (h : x - d ≤ y) :
    max 0 (min 1 x) - d ≤ max 0 (min 1 y) := by
  simp only [min_def, max_def]
  split_ifs <;> linarith

theorem calculateComplexity_append_drop (p s : List Char) :
    calculateComplexity p - 0.7 ≤ calculateComplexity (p ++ s) := by
  rw [calculateComplexity_eq, calculateComplexity_eq]
  apply clamp_drop (by norm_num)
  have hp1 : (if hasCommonPattern p then -(0.3 : ℚ) else 0) ≤ 0 := by
    split <;> norm_num
  have hp2 : (if hasRepeats p then -(0.2 : ℚ) else 0) ≤ 0 := by
    split <;> norm_num
  have hp3 : (if hasSequential p then -(0.2 : ℚ) else 0) ≤ 0 := by
    split <;> norm_num
  have hq1 : -(0.3 : ℚ) ≤ (if hasCommonPattern (p ++ s) then -(0.3 : ℚ) else 0) := by
    split <;> norm_num
  have hq2 : -(0.2 : ℚ) ≤ (if hasRepeats (p ++ s) then -(0.2 : ℚ) else 0) := by
    split <;> norm_num
  have hq3 : -(0.2 : ℚ) ≤ (if hasSequential (p ++ s) then -(0.2 : ℚ) else 0) := by
    split <;> norm_num
  have hb1 : (if hasLower p && hasUpper p then (0.2 : ℚ) else 0) ≤
      (if hasLower (p ++ s) && hasUpper (p ++ s) then (0.2 : ℚ) else 0) := by
    apply ite_weight_mono _ _ _ (by norm_num)
    intro hb
    rw [Bool.and_eq_true] at hb ⊢
    exact ⟨hasLower_append p s hb.1, hasUpper_append p s hb.2⟩
  have hb2 : (if hasDigit p && hasLetter p then (0.2 : ℚ) else 0) ≤
      (if hasDigit (p ++ s) && hasLetter (p ++ s) then (0.2 : ℚ) else 0) := by
    apply ite_weight_mono _ _ _ (by norm_num)
    intro hb
    rw [Bool.and_eq_true] at hb ⊢
    exact ⟨hasDigit_append p s hb.1, hasLetter_append p s hb.2⟩
  have hb3 : (if 12 ≤ p.length then (0.3 : ℚ) else 0) ≤
      (if 12 ≤ (p ++ s).length then (0.3 : ℚ) else 0) := by
    rw [List.length_append]
    split <;> split <;> first | (exfalso; omega) | norm_num
  have hb4 : (if 16 ≤ p.length then (0.2 : ℚ) else 0) ≤
      (if 16 ≤ (p ++ s).length then (0.2 : ℚ) else 0) := by
    rw [List.length_append]
    split <;> split <;> first | (exfalso; omega) | norm_num
  linarith

/-- **C4**: for every password `p` and appended suffix `s` such that `p ++ s`
contains a character of a character class (lowercase, uppercase, digit,
special) that `p` lacks, the total computed by `validatePasswordStrength` on
`p ++ s` is at least the total on `p`: the newly awarded class weight (15)
strictly exceeds the largest possible complexity loss (0.7 · 20 = 14), and
every other term is monotone under appending. -/
theorem c4_append_class_mono (p s : List Char)
    (h : (hasLower (p ++ s) = true ∧ hasLower p = false) ∨
         (hasUpper (p ++ s) = true ∧ hasUpper p = false) ∨
         (hasDigit (p ++ s) = true ∧ hasDigit p = false) ∨
         (hasSpecial (p ++ s) = true ∧ hasSpecial p = false)) :
    (validatePasswordStrength p).total ≤
      (validatePasswordStrength (p ++ s)).total := by
  rw [validate_total_eq, validate_total_eq]
  have hlen := lengthScore_mono p s
  have hcomp := calculateComplexity_append_drop p s
  have hL := ite_weight_mono (hasLower p) (hasLower (p ++ s)) lowercaseWeight
    (by norm_num [lowercaseWeight]) (hasLower_append p s)
  have hU := ite_weight_mono (hasUpper p) (hasUpper (p ++ s)) uppercaseWeight
    (by norm_num [uppercaseWeight]) (hasUpper_append p s)
  have hD := ite_weight_mono (hasDigit p) (hasDigit (p ++ s)) numberWeight
    (by norm_num [numberWeight]) (hasDigit_append p s)
  have hS := ite_weight_mono (hasSpecial p) (hasSpecial (p ++ s)) specialWeight
    (by norm_num [specialWeight]) (hasSpecial_append p s)
  unfold lowercaseWeight uppercaseWeight numberWeight specialWeight
    complexityWeight at *
  rcases h with ⟨h2, h1⟩ | ⟨h2, h1⟩ | ⟨h2, h1⟩ | ⟨h2, h1⟩
  · have hz : (if hasLower p = true then (15 : ℚ) else 0) = 0 := by simp [h1]
    have hf : (if hasLower (p ++ s) = true then (15 : ℚ) else 0) = 15 := by
      simp [h2]
    linarith [hz, hf]
  · have hz : (if hasUpper p = true then (15 : ℚ) else 0) = 0 := by simp [h1]
    have hf : (if hasUpper (p ++ s) = true then (15 : ℚ) else 0) = 15 := by
      simp [h2]
    linarith [hz, hf]
  · have hz : (if hasDigit p = true then (15 : ℚ) else 0) = 0 := by simp [h1]
    have hf : (if hasDigit (p ++ s) = true then (15 : ℚ) else 0) = 15 := by
      simp [h2]
    linarith [hz, hf]
  · have hz : (if hasSpecial p = true then (15 : ℚ) else 0) = 0 := by simp [h1]
    have hf : (if hasSpecial (p ++ s) = true then (15 : ℚ) else 0) = 15 := by
      simp [h2]
    linarith [hz, hf]

/-- Witness for C4 at `p = "a"`, `s = "1"`: the suffix adds the digit class
missing from `p`, and the total does not decrease. -/
theorem c4_witness :
    (hasDigit ("a".data ++ "1".data) = true ∧ hasDigit "a".data = false) ∧
    (validatePasswordStrength "a".data).total ≤
      (validatePasswordStrength ("a".data ++ "1".data)).total :=
  ⟨⟨by decide, by decide⟩,
    c4_append_class_mono "a".data "1".data
      (Or.inr (Or.inr (Or.inl ⟨by decide, by decide⟩)))⟩

/-! ## C6: twelve identical lowercase letters -/

/-- **C6** (counterexample): the claim "length=true, lowercase=true, all other
entries false" fails for "aaaaaaaaaaaa" — its complexity sub-score is 0.8,
which exceeds the 0.7 threshold, so the `complexity` entry is true, not
false. -/
theorem c6_counterexample :
    ¬((validatePasswordStrength "aaaaaaaaaaaa".data).length = true ∧
      (validatePasswordStrength "aaaaaaaaaaaa".data).lowercase = true ∧
      (validatePasswordStrength "aaaaaaaaaaaa".data).uppercase = false ∧
      (validatePasswordStrength "aaaaaaaaaaaa".data).number = false ∧
      (validatePasswordStrength "aaaaaaaaaaaa".data).special = false ∧
      (validatePasswordStrength "aaaaaaaaaaaa".data).complexity = false) := by
  intro hcl
  have hc : calculateComplexity "aaaaaaaaaaaa".data = 0.8 := by
    simp +decide [calculateComplexity, min_def, max_def]
    norm_num
  have htrue : (validatePasswordStrength "aaaaaaaaaaaa".data).complexity = true := by
    rw [validate_complexity_eq, hc, decide_eq_true_eq]
    norm_num
  rw [hcl.2.2.2.2.2] at htrue
  exact Bool.noConfusion htrue

/-- **C6** (amended): scoring "aaaaaaaaaaaa" yields `length` = true,
`lowercase` = true, the other three character-class entries false, and the
`complexity` entry true, since the sub-score — penalized 0.2 for the repeated
character and awarded the 0.3 length bonus — is 0.8, strictly between 0 and 1
and above the 0.7 display threshold. -/
theorem c6_amended :
    (validatePasswordStrength "aaaaaaaaaaaa".data).length = true ∧
    (validatePasswordStrength "aaaaaaaaaaaa".data).lowercase = true ∧
    (validatePasswordStrength "aaaaaaaaaaaa".data).uppercase = false ∧
    (validatePasswordStrength "aaaaaaaaaaaa".data).number = false ∧
    (validatePasswordStrength "aaaaaaaaaaaa".data).special = false ∧
    (validatePasswordStrength "aaaaaaaaaaaa".data).complexity = true ∧
    hasRepeats "aaaaaaaaaaaa".data = true ∧
    12 ≤ "aaaaaaaaaaaa".data.length ∧
    calculateComplexity "aaaaaaaaaaaa".data = 0.8 ∧
    0 < calculateComplexity "aaaaaaaaaaaa".data ∧
    calculateComplexity "aaaaaaaaaaaa".data < 1 := by
  have hc : calculateComplexity "aaaaaaaaaaaa".data = 0.8 := by
    simp +decide [calculateComplexity, min_def, max_def]
    norm_num
  refine ⟨by decide, by decide, by decide, by decide, by decide, ?_,
    by decide, by decide, hc, ?_, ?_⟩
  · rw [validate_complexity_eq, hc, decide_eq_true_eq]
    norm_num
  · rw [hc]; norm_num
  · rw [hc]; norm_num

/-! ## C7: "Passw0rd!" and the literal denylist substring search -/

/-- **C7**: scoring "Passw0rd!" marks all five binary rules true, and the
denylist penalty does not apply: the check is a literal substring search over
the lowercased password, and "passw0rd!" does not contain the literal
substring "password". -/
theorem c7_passw0rd :
    (validatePasswordStrength "Passw0rd!".data).length = true ∧
    (validatePasswordStrength "Passw0rd!".data).lowercase = true ∧
    (validatePasswordStrength "Passw0rd!".data).uppercase = true ∧
    (validatePasswordStrength "Passw0rd!".data).number = true ∧
    (validatePasswordStrength "Passw0rd!".data).special = true ∧
    hasCommonPattern "Passw0rd!".data = false ∧
    ¬("password".data <:+: "Passw0rd!".data.map toLowerJs) :=
  ⟨by decide, by decide, by decide, by decide, by decide, by decide, by decide⟩

/-! ## C8: "Tr0ub4dour&3xyz" -/

/-- **C8**: scoring "Tr0ub4dour&3xyz" applies the sequential-run penalty (the
ascending run "xyz" occurs) and the ≥ 12 length bonus, and the total — in
fact exactly 100 — is at least 70. -/
theorem c8_troubadour :
    hasSequential "Tr0ub4dour&3xyz".data = true ∧
    ("xyz".data <:+: "Tr0ub4dour&3xyz".data.map toLowerJs) ∧
    12 ≤ "Tr0ub4dour&3xyz".data.length ∧
    70 ≤ (validatePasswordStrength "Tr0ub4dour&3xyz".data).total := by
  have hc : calculateComplexity "Tr0ub4dour&3xyz".data = 1 := by
    simp +decide [calculateComplexity, min_def, max_def]
    norm_num
  have htot : (validatePasswordStrength "Tr0ub4dour&3xyz".data).total = 100 := by
    rw [validate_total_eq, hc]
    simp +decide [lengthScore, lengthWeight, lowercaseWeight, uppercaseWeight,
      numberWeight, specialWeight, complexityWeight, min_def, max_def]
    norm_num
  exact ⟨by decide, by decide, by decide, by rw [htot]; norm_num⟩

/-! ## C9: the consecutive-repeat penalty is case-sensitive -/

/-- **C9**: for every string in which no single character occurs three or more
times in a row with identical case — no character `c` has `[c, c, c]` as a
contiguous substring — the repeat test is false and the 0.2 repeat penalty is
not subtracted from the complexity sub-score. -/
theorem c9_case_sensitive_repeats (p : List Char)
    (h : ∀ c ∈ p, ¬([c, c, c] <:+: p)) :
    hasRepeats p = false ∧
    calculateComplexity p =
      max 0 (min 1 ((if hasCommonPattern p then -(0.3 : ℚ) else 0)
        + (if hasSequential p then -(0.2 : ℚ) else 0)
        + (if hasLower p && hasUpper p then (0.2 : ℚ) else 0)
        + (if hasDigit p && hasLetter p then (0.2 : ℚ) else 0)
        + (if 12 ≤ p.length then (0.3 : ℚ) else 0)
        + (if 16 ≤ p.length then (0.2 : ℚ) else 0) + 0.7)) := by
  have hrep : hasRepeats p = false := by
    rw [Bool.eq_false_iff]
    intro hr
    rw [hasRepeats, List.any_eq_true] at hr
    rcases hr with ⟨c, hc, hcc⟩
    rw [Bool.and_eq_true, decide_eq_true_eq] at hcc
    exact h c hc hcc.2
  refine ⟨hrep, ?_⟩
  rw [calculateComplexity_eq, hrep]
  congr 1
  congr 1
  simp only [Bool.false_eq_true, if_false]
  ring

/-- Witness for C9 at "aaA": its only length-3 run is the mixed-case "aaA",
so no identical-case triple occurs and the repeat penalty is off. -/
theorem c9_witness :
    (∀ c ∈ "aaA".data, ¬([c, c, c] <:+: "aaA".data)) ∧
    (hasRepeats "aaA".data = false ∧
      calculateComplexity "aaA".data =
        max 0 (min 1 ((if hasCommonPattern "aaA".data then -(0.3 : ℚ) else 0)
          + (if hasSequential "aaA".data then -(0.2 : ℚ) else 0)
          + (if hasLower "aaA".data && hasUpper "aaA".data then (0.2 : ℚ) else 0)
          + (if hasDigit "aaA".data && hasLetter "aaA".data then (0.2 : ℚ) else 0)
          + (if 12 ≤ "aaA".data.length then (0.3 : ℚ) else 0)
          + (if 16 ≤ "aaA".data.length then (0.2 : ℚ) else 0) + 0.7))) :=
  ⟨by decide, c9_case_sensitive_repeats "aaA".data (by decide)⟩

/-! ## C10: twelve spaces -/

/-- **C10**: for a password of exactly 12 space characters — no character of
any recognized class — `perRule` marks `length` and `complexity` true and the
four class entries false; the complexity sub-score is 0.8 (0.7 baseline,
minus the 0.2 repeat penalty, plus the 0.3 length bonus) and the total is 36
(full 20-point length ramp plus 0.8 · 20). -/
theorem c10_twelve_spaces :
    (validatePasswordStrength (List.replicate 12 ' ')).length = true ∧
    (validatePasswordStrength (List.replicate 12 ' ')).complexity = true ∧
    (validatePasswordStrength (List.replicate 12 ' ')).lowercase = false ∧
    (validatePasswordStrength (List.replicate 12 ' ')).uppercase = false ∧
    (validatePasswordStrength (List.replicate 12 ' ')).number = false ∧
    (validatePasswordStrength (List.replicate 12 ' ')).special = false ∧
    calculateComplexity (List.replicate 12 ' ') = 0.8 ∧
    hasRepeats (List.replicate 12 ' ') = true ∧
    hasCommonPattern (List.replicate 12 ' ') = false ∧
    hasSequential (List.replicate 12 ' ') = false ∧
    (List.replicate 12 ' ').length = 12 ∧
    (validatePasswordStrength (List.replicate 12 ' ')).total = 36 := by
  have hc : calculateComplexity (List.replicate 12 ' ') = 0.8 := by
    simp +decide [calculateComplexity, min_def, max_def]
    norm_num
  have htot : (validatePasswordStrength (List.replicate 12 ' ')).total = 36 := by
    rw [validate_total_eq, hc]
    simp +decide [lengthScore, lengthWeight, lowercaseWeight, uppercaseWeight,
      numberWeight, specialWeight, complexityWeight, min_def, max_def]
    norm_num
  refine ⟨by decide, ?_, by decide, by decide, by decide, by decide, hc,
    by decide, by decide, by decide, by decide, htot⟩
  rw [validate_complexity_eq, hc, decide_eq_true_eq]
  norm_num

end Menu
